import Mathlib

/-
  A shallow embedding of the cmake-ast library (cmakeast/ast.py and
  cmakeast/ast_visitor.py): the line-by-line regex scanner, the token
  compressor with its four recorders and two edge-case handlers, the
  recursive-descent parser, and the schema-driven AST visitor.

  Python exceptions are modelled with an explicit error type; functions that
  can raise return Except.  Loops whose termination is not structural take a
  fuel argument; fuel exhaustion is a distinguished error that does not occur
  on the concrete inputs evaluated below.
-/

namespace CMakeAST

/-- Errors a pipeline run can raise (RuntimeError carries its message). -/
inductive PyErr where
  | runtimeError (msg : String)
  | assertionError
  | indexError
  | outOfFuel
deriving DecidableEq, Repr

/-- TokenType from ast.py (integer constants there, one constructor each). -/
inductive TokenType where
  | quotedLiteral
  | leftParen
  | rightParen
  | word
  | number
  | deref
  | whitespace
  | newline
  | beginDoubleQuotedLiteral
  | endDoubleQuotedLiteral
  | beginSingleQuotedLiteral
  | endSingleQuotedLiteral
  | beginRSTComment
  | beginInlineRST
  | rst
  | endInlineRST
  | comment
  | unquotedLiteral
deriving DecidableEq, Repr

/-- WordType from ast.py. -/
inductive WordType where
  | string
  | number
  | variableDereference
  | variable
  | compoundLiteral
deriving DecidableEq, Repr

/-- Token record: type, textual content, 1-based line and column. -/
structure Token where
  type : TokenType
  content : String
  line : Nat
  col : Nat
deriving DecidableEq, Repr

/-- List indexing that models a Python IndexError on out-of-range access. -/
def tokGet (tokens : List Token) (i : Nat) : Except PyErr Token :=
  match tokens[i]? with
  | some t => .ok t
  | none => .error .indexError

/-- The single-quote character (written by code to avoid literal quoting). -/
def squote : Char := Char.ofNat 39

/-- The opening-brace character. -/
def obrace : Char := Char.ofNat 123

/-- The closing-brace character. -/
def cbrace : Char := Char.ofNat 125

/-- Python regex class backslash-s over the ASCII inputs handled here. -/
def isPySpace (c : Char) : Bool :=
  c = ' ' || c = '\t' || c = '\n' || c = '\r' || c = '\x0b' || c = '\x0c'

/-- First character class of the Word rule: the source writes [a-zA-z_],
    whose a-to-lower-z plus upper-A-to-lower-z union is codepoints 65..122. -/
def isWordFirst (c : Char) : Bool :=
  (65 ≤ c.toNat && c.toNat ≤ 122) || c = '_'

/-- Continuation class [a-zA-Z0-9_]. -/
def isWordRest (c : Char) : Bool :=
  ('a' ≤ c && c ≤ 'z') || ('A' ≤ c && c ≤ 'Z') || ('0' ≤ c && c ≤ '9') || c = '_'

/-- Digit class [0-9]. -/
def isDigitCh (c : Char) : Bool :=
  '0' ≤ c && c ≤ '9'

/-- Lookbehind shared by several rules: no previous char, or it is
    whitespace or a left paren. -/
def prevOkStd (cs : List Char) (i : Nat) : Bool :=
  match i with
  | 0 => true
  | j + 1 =>
    match cs[j]? with
    | some c => isPySpace c || c = '('
    | none => true

/-- Lookbehind of the begin-quoted rules, which additionally allows a
    preceding backslash. -/
def prevOkBeginQuoted (cs : List Char) (i : Nat) : Bool :=
  match i with
  | 0 => true
  | j + 1 =>
    match cs[j]? with
    | some c => isPySpace c || c = '(' || c = '\\'
    | none => true

/-- Lookahead: end of line, whitespace, or a right paren. -/
def nextOkCloseQuote (cs : List Char) (i : Nat) : Bool :=
  match cs[i]? with
  | none => true
  | some c => isPySpace c || c = ')'

/-- Lookahead: end of line, whitespace, or either paren. -/
def nextOkWordNum (cs : List Char) (i : Nat) : Bool :=
  match cs[i]? with
  | none => true
  | some c => isPySpace c || c = ')' || c = '('

/-- Dollar anchor of the un-multiline Python regexes: end of the string, or
    just before a trailing newline. -/
def isDollarPos (cs : List Char) (i : Nat) : Bool :=
  i = cs.length || (i + 1 = cs.length && cs[i]? = some '\n')

/-- End of the maximal run of characters satisfying p, starting at j. -/
def runEndFrom (cs : List Char) (p : Char → Bool) : Nat → Nat → Nat
  | 0, j => j
  | fuel + 1, j =>
    match cs[j]? with
    | some c => if p c then runEndFrom cs p fuel (j + 1) else j
    | none => j

/-- Lazy body of the one-line QuotedLiteral rule: at each position first try
    to close on the quote q (with its lookahead), else consume one unit,
    where a backslash always pairs with the following character. -/
def quotedLitLoop (cs : List Char) (q : Char) : Nat → Nat → Option Nat
  | 0, _ => none
  | fuel + 1, j =>
    match cs[j]? with
    | none => none
    | some c =>
      if c = q && nextOkCloseQuote cs (j + 1) then some (j + 1)
      else if c = '\\' then
        match cs[j + 1]? with
        | some c2 => if c2 = '\n' then none else quotedLitLoop cs q fuel (j + 2)
        | none => none
      else if c = '\n' then none
      else quotedLitLoop cs q fuel (j + 1)

/-- Rule 1: a complete quoted string on one line. -/
def matchQuotedLiteral (cs : List Char) (i : Nat) : Option Nat :=
  if prevOkStd cs i then
    match cs[i]? with
    | some c =>
      if c = '"' || c = squote then quotedLitLoop cs c (cs.length + 1) (i + 1)
      else none
    | none => none
  else none

/-- Rule 2: an optionally negative integer with word boundaries. -/
def matchNumber (cs : List Char) (i : Nat) : Option Nat :=
  if prevOkStd cs i then
    let start := if cs[i]? = some '-' then i + 1 else i
    let e := runEndFrom cs isDigitCh (cs.length + 1) start
    if start < e && nextOkWordNum cs e then some e else none
  else none

/-- Rule 5: an identifier-shaped word. -/
def matchWord (cs : List Char) (i : Nat) : Option Nat :=
  if prevOkStd cs i then
    match cs[i]? with
    | some c =>
      if isWordFirst c then
        let e := runEndFrom cs isWordRest (cs.length + 1) (i + 1)
        if nextOkWordNum cs e then some e else none
      else none
    | none => none
  else none

/-- Rule 6: a variable dereference dollar-brace-ident-brace. -/
def matchDeref (cs : List Char) (i : Nat) : Option Nat :=
  if prevOkStd cs i then
    match cs[i]?, cs[i + 1]?, cs[i + 2]? with
    | some '$', some b, some c =>
      if b = obrace && isWordFirst c then
        let e := runEndFrom cs isWordRest (cs.length + 1) (i + 3)
        if cs[e]? = some cbrace && nextOkCloseQuote cs (e + 1) then some (e + 1)
        else none
      else none
    | _, _, _ => none
  else none

/-- Greedy body of the begin-quoted rules, running to the dollar anchor.
    Units are a non-quote character (preferred) or backslash-quote; the
    first successfully explored longest path wins. -/
def beginQuotedLoop (cs : List Char) (q : Char) : Nat → Nat → Option Nat
  | 0, _ => none
  | fuel + 1, j =>
    let viaPlain :=
      match cs[j]? with
      | some c => if c = q then none else beginQuotedLoop cs q fuel (j + 1)
      | none => none
    let viaEsc :=
      match viaPlain with
      | some r => some r
      | none =>
        match cs[j]?, cs[j + 1]? with
        | some c, some c2 =>
          if c = '\\' && c2 = q then beginQuotedLoop cs q fuel (j + 2) else none
        | _, _ => none
    match viaEsc with
    | some r => some r
    | none => if isDollarPos cs j then some j else none

/-- Rules 8/10 pattern: an unmatched opening quote running to end of line. -/
def matchBeginQuoted (q : Char) (cs : List Char) (i : Nat) : Option Nat :=
  if prevOkBeginQuoted cs i then
    if cs[i]? = some q then beginQuotedLoop cs q (cs.length + 1) (i + 1)
    else none
  else none

/-- Descend from k looking for the rightmost closing quote acceptable to the
    end-quoted rule (no preceding backslash, closing lookahead holds). -/
def endQuotedFind (cs : List Char) (q : Char) (i : Nat) : Nat → Nat → Option Nat
  | 0, _ => none
  | fuel + 1, k =>
    let ok :=
      cs[k]? = some q &&
      (k = 0 || (cs[k - 1]? ≠ some '\\')) &&
      nextOkCloseQuote cs (k + 1)
    if ok then some (k + 1)
    else if k ≤ i then none
    else endQuotedFind cs q i fuel (k - 1)

/-- Rules 9/11 pattern: a non-whitespace prefix ending in an unescaped
    closing quote. -/
def matchEndQuoted (q : Char) (cs : List Char) (i : Nat) : Option Nat :=
  let m := runEndFrom cs (fun c => !(isPySpace c)) (cs.length + 1) i
  if i < m then endQuotedFind cs q i (cs.length + 1) (m - 1)
  else none

/-- Rule 12: hash, any char, r s t colon, at end of line. -/
def matchBeginRSTComment (cs : List Char) (i : Nat) : Option Nat :=
  match cs[i]?, cs[i + 1]? with
  | some '#', some c =>
    if c ≠ '\n' && cs[i + 2]? = some 'r' && cs[i + 3]? = some 's' &&
       cs[i + 4]? = some 't' && cs[i + 5]? = some ':' && isDollarPos cs (i + 6)
    then some (i + 6) else none
  | _, _ => none

/-- Rule 13: hash, open bracket, equals run, open bracket, any char,
    r s t colon, at end of line. -/
def matchBeginInlineRST (cs : List Char) (i : Nat) : Option Nat :=
  if cs[i]? = some '#' && cs[i + 1]? = some '[' then
    let e := runEndFrom cs (fun c => c = '=') (cs.length + 1) (i + 2)
    match cs[e]?, cs[e + 1]? with
    | some '[', some c =>
      if c ≠ '\n' && cs[e + 2]? = some 'r' && cs[e + 3]? = some 's' &&
         cs[e + 4]? = some 't' && cs[e + 5]? = some ':' && isDollarPos cs (e + 6)
      then some (e + 6) else none
    | _, _ => none
  else none

/-- Rule 14: hash, close bracket, equals run, close bracket, at end of line. -/
def matchEndInlineRST (cs : List Char) (i : Nat) : Option Nat :=
  if cs[i]? = some '#' && cs[i + 1]? = some ']' then
    let e := runEndFrom cs (fun c => c = '=') (cs.length + 1) (i + 2)
    if cs[e]? = some ']' && isDollarPos cs (e + 1) then some (e + 1) else none
  else none

/-- Catch-all rule: three alternatives, tried left to right. -/
def matchUnquotedLiteral (cs : List Char) (i : Nat) : Option Nat :=
  let eA := runEndFrom cs (fun c => !(isPySpace c) && c ≠ '(' && c ≠ ')') (cs.length + 1) i
  if i < eA then some eA
  else
    -- second alternative: star of non-space non-open-paren, then one non-close-paren
    let eB := runEndFrom cs (fun c => !(isPySpace c) && c ≠ '(') (cs.length + 1) i
    let rec findB : Nat → Nat → Option Nat
      | 0, _ => none
      | fuel + 1, j =>
        match cs[j]? with
        | some c =>
          if c ≠ ')' then some (j + 1)
          else if j ≤ i then none
          else findB fuel (j - 1)
        | none => if j ≤ i then none else findB fuel (j - 1)
    match findB (cs.length + 2) eB with
    | some r => some r
    | none =>
      -- third alternative: one non-open-paren, then star of non-space non-close-paren
      match cs[i]? with
      | some c =>
        if c ≠ '(' then some (runEndFrom cs (fun d => !(isPySpace d) && d ≠ ')') (cs.length + 1) (i + 1))
        else none
      | none => none

/-- One scanner step: try every rule in the priority order of the source and
    return the token type with the match end. -/
def scanRules (cs : List Char) (i : Nat) : Option (TokenType × Nat) :=
  match matchQuotedLiteral cs i with
  | some e => some (.quotedLiteral, e)
  | none =>
  match matchNumber cs i with
  | some e => some (.number, e)
  | none =>
  if cs[i]? = some '(' then some (.leftParen, i + 1)
  else if cs[i]? = some ')' then some (.rightParen, i + 1)
  else
  match matchWord cs i with
  | some e => some (.word, e)
  | none =>
  match matchDeref cs i with
  | some e => some (.deref, e)
  | none =>
  if cs[i]? = some '\n' then some (.newline, i + 1)
  else
  match (match cs[i]? with
         | some c => if isPySpace c then some (runEndFrom cs isPySpace (cs.length + 1) (i + 1)) else none
         | none => none) with
  | some e => some (.whitespace, e)
  | none =>
  match matchBeginQuoted '"' cs i with
  | some e => some (.beginDoubleQuotedLiteral, e)
  | none =>
  match matchEndQuoted '"' cs i with
  | some e => some (.endDoubleQuotedLiteral, e)
  | none =>
  match matchBeginQuoted squote cs i with
  | some e => some (.beginSingleQuotedLiteral, e)
  | none =>
  match matchEndQuoted squote cs i with
  | some e => some (.endSingleQuotedLiteral, e)
  | none =>
  match matchBeginRSTComment cs i with
  | some e => some (.beginRSTComment, e)
  | none =>
  match matchBeginInlineRST cs i with
  | some e => some (.beginInlineRST, e)
  | none =>
  match matchEndInlineRST cs i with
  | some e => some (.endInlineRST, e)
  | none =>
  if cs[i]? = some '#' then some (.comment, i + 1)
  else
  match matchUnquotedLiteral cs i with
  | some e => some (.unquotedLiteral, e)
  | none => none

/-- Slice of a line as a string. -/
def sliceStr (cs : List Char) (i j : Nat) : String :=
  String.mk ((cs.drop i).take (j - i))

/-- Scan one line, producing tokens with 1-based columns; an unmatched
    residue raises the RuntimeError of the source. -/
def scanLineLoop (cs : List Char) (lineno : Nat) : Nat → Nat → Nat → Except PyErr (List Token)
  | 0, _, _ => .error .outOfFuel
  | fuel + 1, pos, col =>
    if pos ≥ cs.length then .ok []
    else
      match scanRules cs pos with
      | some (ty, e) => do
        let content := sliceStr cs pos e
        let rest ← scanLineLoop cs lineno fuel e (col + content.length)
        .ok (⟨ty, content, lineno, col⟩ :: rest)
      | none =>
        .error (.runtimeError ("Unknown tokens found on line " ++ toString lineno ++ ": "
          ++ sliceStr cs pos cs.length))

/-- splitlines with keepends over newline characters. -/
def splitLinesKeep (cs : List Char) : List (List Char) :=
  match cs with
  | [] => []
  | _ =>
    let rec go : List Char → List Char → List (List Char)
      | [], acc => if acc = [] then [] else [acc.reverse]
      | c :: rest, acc =>
        if c = '\n' then (acc.reverse ++ ['\n']) :: go rest []
        else go rest (c :: acc)
    go cs []

/-- The scanner: line-by-line priority-ordered matching (scan_for_tokens). -/
def scanForTokens (contents : String) : Except PyErr (List Token) := do
  let lines := splitLinesKeep contents.toList
  let rec go : List (List Char) → Nat → Except PyErr (List Token)
    | [], _ => .ok []
    | l :: ls, lineno => do
      let toks ← scanLineLoop l (lineno + 1) (l.length + 1) 0 1
      let rest ← go ls (lineno + 1)
      .ok (toks ++ rest)
  go lines 0

/-- is_word_type from ast.py. -/
def isWordTypeTok (t : TokenType) : Bool :=
  t = .word || t = .quotedLiteral || t = .unquotedLiteral || t = .number || t = .deref

/-- is_in_comment_type from ast.py. -/
def isInCommentType (t : TokenType) : Bool :=
  t = .comment || t = .newline || t = .whitespace || t = .rst ||
  t = .beginRSTComment || t = .beginInlineRST || t = .endInlineRST

/-- is_begin_quoted_type from ast.py. -/
def isBeginQuotedType (t : TokenType) : Bool :=
  t = .beginSingleQuotedLiteral || t = .beginDoubleQuotedLiteral

/-- is_end_quoted_type from ast.py. -/
def isEndQuotedType (t : TokenType) : Bool :=
  t = .endSingleQuotedLiteral || t = .endDoubleQuotedLiteral

/-- is_paren_type from ast.py. -/
def isParenType (t : TokenType) : Bool :=
  t = .leftParen || t = .rightParen

/-- Quote flavor of a multi-line string (the Single or Double strings of
    get_string_type_from_token). -/
inductive QuoteT where
  | single
  | double
deriving DecidableEq, Repr

/-- get_string_type_from_token; the assert fires on any other kind. -/
def getStringTypeFromToken (t : TokenType) : Except PyErr QuoteT :=
  if t = .beginSingleQuotedLiteral || t = .endSingleQuotedLiteral then .ok .single
  else if t = .beginDoubleQuotedLiteral || t = .endDoubleQuotedLiteral then .ok .double
  else .error .assertionError

/-- Begin-quoted token kind of a flavor. -/
def beginLiteralType : QuoteT → TokenType
  | .single => .beginSingleQuotedLiteral
  | .double => .beginDoubleQuotedLiteral

/-- End-quoted token kind of a flavor. -/
def endLiteralType : QuoteT → TokenType
  | .single => .endSingleQuotedLiteral
  | .double => .endDoubleQuotedLiteral

/-- replace_token_range from ast.py. -/
def replaceTokenRange (tokens : List Token) (start endI : Nat) (replacement : List Token) : List Token :=
  tokens.take start ++ replacement ++ tokens.drop endI

/-- is_really_comment from ast.py: a Comment token, or any token whose
    content after leading whitespace starts with a hash. -/
def isReallyComment (tok : Token) : Bool :=
  tok.type = .comment ||
  (match tok.content.toList.dropWhile (fun c => isPySpace c) with
   | c :: _ => c = '#'
   | [] => false)

/-- Concatenation of the contents of tokens in the index range [b, e). -/
def pasteContents (tokens : List Token) (b e : Nat) : String :=
  ((tokens.drop b).take (e - b)).foldl (fun s t => s ++ t.content) ""

/-- Walk forward from j while tokens stay on the given source line. -/
def pasteTraverse (tokens : List Token) (rstLine : Nat) : Nat → Nat → Nat
  | 0, j => j
  | fuel + 1, j =>
    match tokens[j]? with
    | some t => if t.line = rstLine then pasteTraverse tokens rstLine fuel (j + 1) else j
    | none => j

/-- paste_tokens_line_by_line from ast.py: fuse tokens one source line at a
    time into single tokens of the given kind.  Running off the end of the
    list is tolerated only when it coincides with the requested range end. -/
def pasteLoop (ty : TokenType) : Nat → Nat → Nat → List Token → Except PyErr (Nat × Nat × List Token)
  | 0, _, _, _ => .error .outOfFuel
  | fuel + 1, blockIndex, endIdx, tokens =>
    if blockIndex < endIdx then do
      let btok ← tokGet tokens blockIndex
      let lti := pasteTraverse tokens btok.line (tokens.length + 1) blockIndex
      if lti = tokens.length && lti ≠ endIdx then .error .assertionError
      else
        let pasted := pasteContents tokens blockIndex lti
        let lastLen := tokens.length
        let tokens1 := replaceTokenRange tokens blockIndex lti [⟨ty, pasted, btok.line, btok.col⟩]
        pasteLoop ty fuel (blockIndex + 1) (endIdx - (lastLen - tokens1.length)) tokens1
    else .ok (blockIndex, tokens.length, tokens)

/-- Entry point matching the signature of the source function. -/
def pasteTokensLineByLine (tokens : List Token) (ty : TokenType) (b e : Nat) : Except PyErr (Nat × Nat × List Token) :=
  pasteLoop ty (e + 1) b e tokens

/-- The four recorders of the compressor, with their recorded state. -/
inductive Recorder where
  | commentedLine (beginIdx line : Nat)
  | rstBlock (beginIdx lastLine : Nat)
  | inlineRST (beginIdx : Nat)
  | multiline (beginIdx : Nat) (q : QuoteT)
deriving DecidableEq, Repr

/-- maybe_start_recording consulted over the recorder registry in source
    order: inline RST, RST comment block, commented line, multi-line string. -/
def maybeStartRecording (tokens : List Token) (index : Nat) : Except PyErr (Option Recorder) := do
  let tok ← tokGet tokens index
  if tok.type = .beginInlineRST then .ok (some (.inlineRST index))
  else if tok.type = .beginRSTComment then .ok (some (.rstBlock index tok.line))
  else if isReallyComment tok then .ok (some (.commentedLine index tok.line))
  else if isBeginQuotedType tok.type then do
    let q ← getStringTypeFromToken tok.type
    .ok (some (.multiline index q))
  else .ok none

/-- CommentedLineRecorder.consume_token. -/
def consumeCommentedLine (beginIdx line : Nat) (tokens : List Token) (index tokensLen : Nat) :
    Except PyErr (Option (Nat × Nat × List Token)) := do
  let tok ← tokGet tokens index
  let endI? : Option Nat :=
    if tok.line > line then some index
    else if index + 1 = tokensLen then some (index + 1)
    else none
  match endI? with
  | some endI => do
    let btok ← tokGet tokens beginIdx
    let pasted := pasteContents tokens beginIdx endI
    let tokens1 := replaceTokenRange tokens beginIdx endI [⟨.comment, pasted, btok.line, btok.col⟩]
    .ok (some (beginIdx, tokens1.length, tokens1))
  | none => .ok none

/-- RSTCommentBlockRecorder.consume_token; also returns the updated
    last-line-with-comment state. -/
def consumeRSTBlock (beginIdx lastLine : Nat) (tokens : List Token) (index tokensLen : Nat) :
    Except PyErr (Option (Nat × Nat × List Token) × Nat) := do
  let tok ← tokGet tokens index
  let lastLine1 := if isReallyComment tok then tok.line else lastLine
  if !(isInCommentType tok.type) && lastLine1 ≠ tok.line then do
    let r ← pasteTokensLineByLine tokens .rst beginIdx index
    .ok (some r, lastLine1)
  else if index + 1 = tokensLen then do
    let r ← pasteTokensLineByLine tokens .rst beginIdx (index + 1)
    .ok (some r, lastLine1)
  else .ok (none, lastLine1)

/-- InlineRSTRecorder.consume_token. -/
def consumeInlineRST (beginIdx : Nat) (tokens : List Token) (index : Nat) :
    Except PyErr (Option (Nat × Nat × List Token)) := do
  let tok ← tokGet tokens index
  if tok.type = .endInlineRST then do
    let r ← pasteTokensLineByLine tokens .rst beginIdx (index + 1)
    .ok (some r)
  else .ok none

/-- MultilineStringRecorder.consume_token, including the edge case where a
    quote that begins a line scanned as a same-flavor begin-quoted token: its
    first character is marked as the closing quote and the remainder of its
    content is rescanned and spliced back with shifted anchors. -/
def consumeMultiline (beginIdx : Nat) (q : QuoteT) (tokens : List Token) (index : Nat) :
    Except PyErr (Option (Nat × Nat × List Token)) := do
  let tok ← tokGet tokens index
  let (tokens1, ended1) ←
    if index ≠ beginIdx && tok.type = beginLiteralType q then do
      let c0 ← match tok.content.toList with
               | [] => (.error .indexError : Except PyErr Char)
               | c :: _ => .ok c
      if !(c0 = '"' || c0 = squote) then .error .assertionError
      else do
        let lineTokens ← scanForTokens (String.mk tok.content.toList.tail)
        let shifted := lineTokens.map (fun a =>
          (⟨a.type, a.content, tok.line + a.line - 1, tok.col + a.col - 1⟩ : Token))
        let replacement := (⟨endLiteralType q, String.mk [c0], tok.line, tok.col⟩ : Token) :: shifted
        .ok (replaceTokenRange tokens index (index + 1) replacement, true)
    else .ok (tokens, false)
  let tok1 ← tokGet tokens1 index
  let ended := ended1 || tok1.type = endLiteralType q
  if ended then do
    let btok ← tokGet tokens1 beginIdx
    let pasted := pasteContents tokens1 beginIdx (index + 1)
    let tokens2 := replaceTokenRange tokens1 beginIdx (index + 1) [⟨.quotedLiteral, pasted, btok.line, btok.col⟩]
    .ok (some (beginIdx, tokens2.length, tokens2))
  else .ok none

/-- Dispatch consume_token on the active recorder, also returning the
    recorder state carried to the next iteration when recording continues. -/
def consumeToken (r : Recorder) (tokens : List Token) (index tokensLen : Nat) :
    Except PyErr (Option (Nat × Nat × List Token) × Recorder) := do
  match r with
  | .commentedLine b l => do
    let res ← consumeCommentedLine b l tokens index tokensLen
    .ok (res, r)
  | .rstBlock b last => do
    let (res, last1) ← consumeRSTBlock b last tokens index tokensLen
    .ok (res, .rstBlock b last1)
  | .inlineRST b => do
    let res ← consumeInlineRST b tokens index
    .ok (res, r)
  | .multiline b q => do
    let res ← consumeMultiline b q tokens index
    .ok (res, r)

/-- edge_case_stray_end_quoted: rewrite the token in place to an unquoted
    literal with the same content and anchor. -/
def edgeCaseStrayEndQuoted (tokens : List Token) (index : Nat) : List Token :=
  match tokens[index]? with
  | some t => tokens.set index ⟨.unquotedLiteral, t.content, t.line, t.col⟩
  | none => tokens

/-- The two edge-case handlers applied in source order when no recorder is
    active: stray nested parens (threading paren_count), then stray
    end-quoted tokens (matched on the current, possibly rewritten, type). -/
def edgeCases (tokens : List Token) (index : Nat) (pc : Int) : Except PyErr (List Token × Int) := do
  let tok ← tokGet tokens index
  let pc1 := if tok.type = .leftParen then pc + 1 else pc
  let tokens1 :=
    if isParenType tok.type && pc1 > 1 then
      tokens.set index ⟨.unquotedLiteral, tok.content, tok.line, tok.col⟩
    else tokens
  let pc2 := if tok.type = .rightParen then pc1 - 1 else pc1
  let tok2 ← tokGet tokens1 index
  let tokens2 := if isEndQuotedType tok2.type then edgeCaseStrayEndQuoted tokens1 index else tokens1
  .ok (tokens2, pc2)

/-- The while loop of compress_tokens; returns the paren counter alongside
    the outcome so the closing assertion of the paren context manager can be
    applied even when an error propagates. -/
def compressLoop : Nat → Option Recorder → Int → Nat → Nat → List Token → Int × Except PyErr (List Token)
  | 0, _, pc, _, _, _ => (pc, .error .outOfFuel)
  | fuel + 1, recorder, pc, index, tokensLen, tokens =>
    if index < tokensLen then
      match (match recorder with
             | some r => Except.ok (some r)
             | none => maybeStartRecording tokens index) with
      | .error e => (pc, .error e)
      | .ok none =>
        match edgeCases tokens index pc with
        | .error e => (pc, .error e)
        | .ok (tokens1, pc1) => compressLoop fuel none pc1 (index + 1) tokensLen tokens1
      | .ok (some r) =>
        match consumeToken r tokens index tokensLen with
        | .error e => (pc, .error e)
        | .ok (some (i, l, ts), _) => compressLoop fuel none pc (i + 1) l ts
        | .ok (none, r1) => compressLoop fuel (some r1) pc (index + 1) tokensLen tokens
    else (pc, .ok tokens)

/-- compress_tokens from ast.py: paste multi-line strings, comments and RST
    together; on leaving the paren context manager, its assertion fires when
    paren_count is not zero. -/
def compressTokens (tokens : List Token) : Except PyErr (List Token) :=
  let n := tokens.foldl (fun a t => a + t.content.length) (tokens.length + 16)
  match compressLoop (n * n * n) none 0 0 tokens.length tokens with
  | (pc, res) => if pc ≠ 0 then .error .assertionError else res

/-- tokenize from ast.py: scan, compress, drop whitespace. -/
def tokenize (contents : String) : Except PyErr (List Token) := do
  let tokens ← scanForTokens contents
  let tokens ← compressTokens tokens
  .ok (tokens.filter (fun t => t.type ≠ TokenType.whitespace))

/-- word_type dispatch from ast.py (WORD_TYPES_DISPATCH). -/
def wordTypeOf (t : TokenType) : Except PyErr WordType :=
  match t with
  | .quotedLiteral => .ok .string
  | .number => .ok .number
  | .deref => .ok .variableDereference
  | .word => .ok .variable
  | .unquotedLiteral => .ok .compoundLiteral
  | _ => .error .assertionError

/-- AST nodes of ast.py as one type (Python is dynamically typed; the
    pyNone constructor stands for the Python None stored in an IfBlock with
    no else clause). -/
inductive Node where
  | word (type : WordType) (contents : String) (line col index : Nat)
  | functionCall (name : String) (arguments : List Node) (line col index : Nat)
  | functionDefinition (header : Node) (body : List Node) (line col index : Nat) (footer : Node)
  | macroDefinition (header : Node) (body : List Node) (line col index : Nat) (footer : Node)
  | ifStatement (header : Node) (body : List Node) (line col index : Nat)
  | elseIfStatement (header : Node) (body : List Node) (line col index : Nat)
  | elseStatement (header : Node) (body : List Node) (line col index : Nat)
  | ifBlock (ifStmt : Node) (elseifStmts : List Node) (elseStmt : Node)
      (line col index : Nat) (footer : Node)
  | foreachStatement (header : Node) (body : List Node) (line col index : Nat) (footer : Node)
  | whileStatement (header : Node) (body : List Node) (line col index : Nat) (footer : Node)
  | toplevelBody (statements : List Node)
  | pyNone
deriving Repr

/-- GenericBody from ast.py. -/
structure GenericBody where
  statements : List Node
  arguments : List Node
deriving Repr

/-- The line attribute of a statement node (getattr node line). -/
def nodeLine : Node → Nat
  | .word _ _ l _ _ => l
  | .functionCall _ _ l _ _ => l
  | .functionDefinition _ _ l _ _ _ => l
  | .macroDefinition _ _ l _ _ _ => l
  | .ifStatement _ _ l _ _ => l
  | .elseIfStatement _ _ l _ _ => l
  | .elseStatement _ _ l _ _ => l
  | .ifBlock _ _ _ l _ _ _ => l
  | .foreachStatement _ _ l _ _ _ => l
  | .whileStatement _ _ l _ _ _ => l
  | .toplevelBody _ => 0
  | .pyNone => 0

/-- The col attribute of a statement node. -/
def nodeCol : Node → Nat
  | .word _ _ _ c _ => c
  | .functionCall _ _ _ c _ => c
  | .functionDefinition _ _ _ c _ _ => c
  | .macroDefinition _ _ _ c _ _ => c
  | .ifStatement _ _ _ c _ => c
  | .elseIfStatement _ _ _ c _ => c
  | .elseStatement _ _ _ c _ => c
  | .ifBlock _ _ _ _ c _ _ => c
  | .foreachStatement _ _ _ c _ _ => c
  | .whileStatement _ _ _ c _ _ => c
  | .toplevelBody _ => 0
  | .pyNone => 0

/-- The compiled terminator regexes; re.match is a prefix match, and only
    truthiness is used. -/
inductive EndRegex where
  | endIfBody
  | endFunction
  | endMacro
  | endForeach
  | endWhile
deriving DecidableEq, Repr

/-- Structural prefix test over character lists; regex match anchors at the
    start of the string, so a literal alternative is a prefix test. -/
def listStartsWith : List Char → List Char → Bool
  | [], _ => true
  | _ :: _, [] => false
  | a :: as, b :: bs => a = b && listStartsWith as bs

/-- Prefix test on strings. -/
def strStartsWith (p s : String) : Bool :=
  listStartsWith p.toList s.toList

/-- Truthiness of regex.match(content) for each terminator regex. -/
def reMatches : EndRegex → String → Bool
  | .endIfBody, s => strStartsWith "endif" s || strStartsWith "else" s || strStartsWith "elseif" s
  | .endFunction, s => strStartsWith "endfunction" s
  | .endMacro, s => strStartsWith "endmacro" s
  | .endForeach, s => strStartsWith "endforeach" s
  | .endWhile, s => strStartsWith "endwhile" s

/-- Termination predicates passed to the statement collector: the
    right-paren test of function-call bodies, or the header-body test that
    requires the terminator name be followed by a LeftParen and converts the
    IndexError at end-of-stream into RuntimeError Syntax Error. -/
inductive TermPred where
  | rightParen
  | headerBody (r : EndRegex)
deriving DecidableEq, Repr

/-- Evaluate a termination predicate at a token index. -/
def evalTerm (p : TermPred) (tokens : List Token) (index : Nat) : Except PyErr Bool := do
  match p with
  | .rightParen => do
    let tok ← tokGet tokens index
    .ok (tok.type = .rightParen)
  | .headerBody r => do
    let tok ← tokGet tokens index
    if reMatches r tok.content then
      match tokens[index + 1]? with
      | some nxt => .ok (nxt.type = .leftParen)
      | none => .error (.runtimeError "Syntax Error")
    else .ok false

/-- Node factories handed to make_header_body_handler, with whether the
    handler consumes a trailing footer call. -/
inductive BlockKind where
  | functionDef
  | macroDef
  | foreachStmt
  | whileStmt
  | ifStmt
  | elseifStmt
  | elseStmt
deriving DecidableEq, Repr

/-- The terminator regex of each header-body handler. -/
def blockRegex : BlockKind → EndRegex
  | .functionDef => .endFunction
  | .macroDef => .endMacro
  | .foreachStmt => .endForeach
  | .whileStmt => .endWhile
  | .ifStmt => .endIfBody
  | .elseifStmt => .endIfBody
  | .elseStmt => .endIfBody

/-- Whether the handler consumes a footer function call. -/
def blockHasFooter : BlockKind → Bool
  | .functionDef => true
  | .macroDef => true
  | .foreachStmt => true
  | .whileStmt => true
  | .ifStmt => false
  | .elseifStmt => false
  | .elseStmt => false

/-- node_factory of each handler. -/
def blockFactory (k : BlockKind) (header : Node) (body : List Node)
    (line col index : Nat) (footer : Node) : Node :=
  match k with
  | .functionDef => .functionDefinition header body line col index footer
  | .macroDef => .macroDefinition header body line col index footer
  | .foreachStmt => .foreachStatement header body line col index footer
  | .whileStmt => .whileStatement header body line col index footer
  | .ifStmt => .ifStatement header body line col index
  | .elseifStmt => .elseIfStatement header body line col index
  | .elseStmt => .elseStatement header body line col index

mutual

/-- ast_worker from ast.py: the statement/argument collector. -/
def astWorker (fuel : Nat) (tokens : List Token) (tokensLen index : Nat)
    (term : Option TermPred) : Except PyErr (Nat × GenericBody) :=
  match fuel with
  | 0 => .error .outOfFuel
  | fuel + 1 =>
    astLoop fuel tokens tokensLen index term [] []
termination_by structural fuel

/-- The while loop of ast_worker, accumulating statements and arguments. -/
def astLoop (fuel : Nat) (tokens : List Token) (tokensLen index : Nat)
    (term : Option TermPred) (statements arguments : List Node) :
    Except PyErr (Nat × GenericBody) :=
  match fuel with
  | 0 => .error .outOfFuel
  | fuel + 1 =>
    if index < tokensLen then do
      let stop ← match term with
                 | some p => evalTerm p tokens index
                 | none => .ok false
      if stop then .ok (index, ⟨statements.reverse, arguments.reverse⟩)
      else do
        let tok ← tokGet tokens index
        if tok.type = .word && index + 1 < tokensLen &&
           (match tokens[index + 1]? with
            | some nxt => nxt.type = .leftParen
            | none => false) then do
          let (index1, statement) ← handleFunctionCall fuel tokens tokensLen index
          astLoop fuel tokens tokensLen (index1 + 1) term (statement :: statements) arguments
        else if isWordTypeTok tok.type then do
          let wt ← wordTypeOf tok.type
          let w := Node.word wt tok.content tok.line tok.col index
          astLoop fuel tokens tokensLen (index + 1) term statements (w :: arguments)
        else
          astLoop fuel tokens tokensLen (index + 1) term statements arguments
    else .ok (index, ⟨statements.reverse, arguments.reverse⟩)
termination_by structural fuel

/-- handle_function_call from ast.py: collect the argument list, build the
    FunctionCall, then dispatch on the name for block forms. -/
def handleFunctionCall (fuel : Nat) (tokens : List Token) (tokensLen index : Nat) :
    Except PyErr (Nat × Node) :=
  match fuel with
  | 0 => .error .outOfFuel
  | fuel + 1 => do
    let (nextIndex, callBody) ← astWorker fuel tokens tokensLen (index + 2) (some .rightParen)
    let tok ← tokGet tokens index
    let functionCall := Node.functionCall tok.content callBody.arguments tok.line tok.col index
    if tok.content = "function" then
      headerBodyHandler fuel .functionDef tokens tokensLen nextIndex functionCall
    else if tok.content = "macro" then
      headerBodyHandler fuel .macroDef tokens tokensLen nextIndex functionCall
    else if tok.content = "if" then
      handleIfBlock fuel tokens tokensLen nextIndex functionCall
    else if tok.content = "foreach" then
      headerBodyHandler fuel .foreachStmt tokens tokensLen nextIndex functionCall
    else if tok.content = "while" then
      headerBodyHandler fuel .whileStmt tokens tokensLen nextIndex functionCall
    else
      .ok (nextIndex, functionCall)
termination_by structural fuel

/-- The handler produced by make_header_body_handler: collect a body with
    the terminator predicate, then for footed forms consume one trailing
    function call as the footer. -/
def headerBodyHandler (fuel : Nat) (kind : BlockKind) (tokens : List Token)
    (tokensLen bodyIndex : Nat) (functionCall : Node) : Except PyErr (Nat × Node) :=
  match fuel with
  | 0 => .error .outOfFuel
  | fuel + 1 => do
    let (tokenIndex, body) ← astWorker fuel tokens tokensLen bodyIndex
      (some (.headerBody (blockRegex kind)))
    let (tokenIndex1, footer) ←
      if blockHasFooter kind then do
        let (t, f) ← handleFunctionCall fuel tokens tokensLen tokenIndex
        (.ok (t, f) : Except PyErr (Nat × Node))
      else .ok (tokenIndex, .pyNone)
    let btok ← tokGet tokens bodyIndex
    .ok (tokenIndex1,
         blockFactory kind functionCall body.statements btok.line btok.col bodyIndex footer)
termination_by structural fuel

/-- handle_if_block from ast.py: the if statement, then a loop over the
    terminators elseif, else and endif. -/
def handleIfBlock (fuel : Nat) (tokens : List Token) (tokensLen bodyIndex : Nat)
    (functionCall : Node) : Except PyErr (Nat × Node) :=
  match fuel with
  | 0 => .error .outOfFuel
  | fuel + 1 => do
    let (nextIndex, ifStatement) ← headerBodyHandler fuel .ifStmt tokens tokensLen bodyIndex functionCall
    let (finalIndex, elseifStatements, elseStatement, footer) ←
      ifBlockLoop fuel tokens tokensLen nextIndex [] .pyNone
    .ok (finalIndex,
         .ifBlock ifStatement elseifStatements elseStatement
           (nodeLine ifStatement) (nodeCol ifStatement) bodyIndex footer)
termination_by structural fuel

/-- The terminator loop of handle_if_block; ends only on endif, whose call
    becomes the footer. -/
def ifBlockLoop (fuel : Nat) (tokens : List Token) (tokensLen nextIndex : Nat)
    (elseifStatements : List Node) (elseStatement : Node) :
    Except PyErr (Nat × List Node × Node × Node) :=
  match fuel with
  | 0 => .error .outOfFuel
  | fuel + 1 => do
    let tok ← tokGet tokens nextIndex
    if !(reMatches .endIfBody tok.content) then .error .assertionError
    else if tok.content = "endif" then do
      let (i, footer) ← handleFunctionCall fuel tokens tokensLen nextIndex
      .ok (i, elseifStatements, elseStatement, footer)
    else do
      let (i, header) ← handleFunctionCall fuel tokens tokensLen nextIndex
      if tok.content = "elseif" then do
        let (i2, st) ← headerBodyHandler fuel .elseifStmt tokens tokensLen (i + 1) header
        ifBlockLoop fuel tokens tokensLen i2 (elseifStatements ++ [st]) elseStatement
      else if tok.content = "else" then do
        let (i2, st) ← headerBodyHandler fuel .elseStmt tokens tokensLen (i + 1) header
        ifBlockLoop fuel tokens tokensLen i2 elseifStatements st
      else
        ifBlockLoop fuel tokens tokensLen i elseifStatements elseStatement
termination_by structural fuel

end

/-- Fuel that is ample for every terminating parse. -/
def parseFuel (tokens : List Token) : Nat :=
  (tokens.length + 16) * (tokens.length + 16)

/-- The body of parse from ast.py once tokens are at hand (the path taken
    when the caller supplies the tokens argument): collect the top level,
    then assert that the cursor reached the end of the stream with no
    dangling arguments. -/
def parseFromTokens (tokens : List Token) : Except PyErr Node := do
  let (tokenIndex, body) ← astWorker (parseFuel tokens) tokens tokens.length 0 none
  if tokenIndex ≠ tokens.length then .error .assertionError
  else
    match body.arguments with
    | [] => .ok (.toplevelBody body.statements)
    | _ :: _ => .error .assertionError

/-- parse from ast.py: tokenize, then build the tree. -/
def parse (contents : String) : Except PyErr Node := do
  let tokens ← tokenize contents
  parseFromTokens tokens

/-- Python class name of a node, the key into NODE_INFO_TABLE. -/
def kindName : Node → String
  | .word .. => "Word"
  | .functionCall .. => "FunctionCall"
  | .functionDefinition .. => "FunctionDefinition"
  | .macroDefinition .. => "MacroDefinition"
  | .ifStatement .. => "IfStatement"
  | .elseIfStatement .. => "ElseIfStatement"
  | .elseStatement .. => "ElseStatement"
  | .ifBlock .. => "IfBlock"
  | .foreachStatement .. => "ForeachStatement"
  | .whileStatement .. => "WhileStatement"
  | .toplevelBody .. => "ToplevelBody"
  | .pyNone => "NoneType"

/-- Callback key (the handler field of NODE_INFO_TABLE) of each node kind;
    none for kinds outside the table, which recurse returns from silently. -/
def handlerKey : Node → Option String
  | .word .. => some "word"
  | .functionCall .. => some "function_call"
  | .functionDefinition .. => some "function_def"
  | .macroDefinition .. => some "macro_def"
  | .ifStatement .. => some "if_stmnt"
  | .elseIfStatement .. => some "elseif_stmnt"
  | .elseStatement .. => some "else_stmnt"
  | .ifBlock .. => some "if_block"
  | .foreachStatement .. => some "foreach"
  | .whileStatement .. => some "while_stmnt"
  | .toplevelBody .. => some "toplevel"
  | .pyNone => none

/-- A recorded callback invocation: the node name, the node, the depth. -/
abbrev Entry := String × Node × Nat

/-- The callback entry for a node when its handler key carries a callback
    in the configuration. -/
def emitEntry (cfg : String → Bool) (d : Nat) (n : Node) : List Entry :=
  match handlerKey n with
  | some k => if cfg k then [(kindName n, n, d)] else []
  | none => []

mutual

/-- recurse from ast_visitor.py: look up the node schema (returning silently
    for kinds outside the table), invoke the registered callback with the
    current depth, then visit the single fields in table order followed by
    the elements of the multi fields, all at depth plus one. -/
def recurseNode (cfg : String → Bool) (d : Nat) : Node → List Entry
  | .word t c l co i => emitEntry cfg d (.word t c l co i)
  | .functionCall n args l c i =>
    emitEntry cfg d (.functionCall n args l c i) ++ recurseList cfg (d + 1) args
  | .functionDefinition h b l c i f =>
    emitEntry cfg d (.functionDefinition h b l c i f) ++
    recurseNode cfg (d + 1) h ++ recurseNode cfg (d + 1) f ++ recurseList cfg (d + 1) b
  | .macroDefinition h b l c i f =>
    emitEntry cfg d (.macroDefinition h b l c i f) ++
    recurseNode cfg (d + 1) h ++ recurseNode cfg (d + 1) f ++ recurseList cfg (d + 1) b
  | .ifStatement h b l c i =>
    emitEntry cfg d (.ifStatement h b l c i) ++
    recurseNode cfg (d + 1) h ++ recurseList cfg (d + 1) b
  | .elseIfStatement h b l c i =>
    emitEntry cfg d (.elseIfStatement h b l c i) ++
    recurseNode cfg (d + 1) h ++ recurseList cfg (d + 1) b
  | .elseStatement h b l c i =>
    emitEntry cfg d (.elseStatement h b l c i) ++
    recurseNode cfg (d + 1) h ++ recurseList cfg (d + 1) b
  | .ifBlock ifS elifs elseS l c i f =>
    emitEntry cfg d (.ifBlock ifS elifs elseS l c i f) ++
    recurseNode cfg (d + 1) ifS ++ recurseNode cfg (d + 1) elseS ++
    recurseNode cfg (d + 1) f ++ recurseList cfg (d + 1) elifs
  | .foreachStatement h b l c i f =>
    emitEntry cfg d (.foreachStatement h b l c i f) ++
    recurseNode cfg (d + 1) h ++ recurseNode cfg (d + 1) f ++ recurseList cfg (d + 1) b
  | .whileStatement h b l c i f =>
    emitEntry cfg d (.whileStatement h b l c i f) ++
    recurseNode cfg (d + 1) h ++ recurseNode cfg (d + 1) f ++ recurseList cfg (d + 1) b
  | .toplevelBody stmts =>
    emitEntry cfg d (.toplevelBody stmts) ++ recurseList cfg (d + 1) stmts
  | .pyNone => []

/-- Visit of the elements of a multi field, in order. -/
def recurseList (cfg : String → Bool) (d : Nat) : List Node → List Entry
  | [] => []
  | n :: ns => recurseNode cfg d n ++ recurseList cfg d ns

end

/-- The entry point recurse of ast_visitor.py, which starts the walk with
    depth zero. -/
def recurse (cfg : String → Bool) (n : Node) : List Entry :=
  recurseNode cfg 0 n

/-- The children of a node, in visiting order: the single fields of the schema
    in table order, then the elements of its multi fields.  This is a direct
    transliteration of NODE_INFO_TABLE, written independently of the
    traversal so depth facts can be stated against the table itself. -/
def childrenInOrder : Node → List Node
  | .word .. => []
  | .functionCall _ args _ _ _ => args
  | .functionDefinition h b _ _ _ f => [h, f] ++ b
  | .macroDefinition h b _ _ _ f => [h, f] ++ b
  | .ifStatement h b _ _ _ => [h] ++ b
  | .elseIfStatement h b _ _ _ => [h] ++ b
  | .elseStatement h b _ _ _ => [h] ++ b
  | .ifBlock ifS elifs elseS _ _ _ f => [ifS, elseS, f] ++ elifs
  | .foreachStatement h b _ _ _ f => [h, f] ++ b
  | .whileStatement h b _ _ _ f => [h, f] ++ b
  | .toplevelBody stmts => stmts
  | .pyNone => []

/-- Whether the node kind appears in NODE_INFO_TABLE. -/
def inSchema (n : Node) : Bool :=
  (handlerKey n).isSome

mutual

/-- Schema preorder with depths: a node in the table contributes itself at
    depth d and its children at depth d+1; a node outside the table
    contributes nothing. -/
def preorderNode (d : Nat) : Node → List Entry
  | .word t c l co i => [(kindName (.word t c l co i), .word t c l co i, d)]
  | .functionCall n args l c i =>
    (kindName (.functionCall n args l c i), .functionCall n args l c i, d) ::
    preorderList (d + 1) args
  | .functionDefinition h b l c i f =>
    (kindName (.functionDefinition h b l c i f), .functionDefinition h b l c i f, d) ::
    (preorderNode (d + 1) h ++ preorderNode (d + 1) f ++ preorderList (d + 1) b)
  | .macroDefinition h b l c i f =>
    (kindName (.macroDefinition h b l c i f), .macroDefinition h b l c i f, d) ::
    (preorderNode (d + 1) h ++ preorderNode (d + 1) f ++ preorderList (d + 1) b)
  | .ifStatement h b l c i =>
    (kindName (.ifStatement h b l c i), .ifStatement h b l c i, d) ::
    (preorderNode (d + 1) h ++ preorderList (d + 1) b)
  | .elseIfStatement h b l c i =>
    (kindName (.elseIfStatement h b l c i), .elseIfStatement h b l c i, d) ::
    (preorderNode (d + 1) h ++ preorderList (d + 1) b)
  | .elseStatement h b l c i =>
    (kindName (.elseStatement h b l c i), .elseStatement h b l c i, d) ::
    (preorderNode (d + 1) h ++ preorderList (d + 1) b)
  | .ifBlock ifS elifs elseS l c i f =>
    (kindName (.ifBlock ifS elifs elseS l c i f), .ifBlock ifS elifs elseS l c i f, d) ::
    (preorderNode (d + 1) ifS ++ preorderNode (d + 1) elseS ++
     preorderNode (d + 1) f ++ preorderList (d + 1) elifs)
  | .foreachStatement h b l c i f =>
    (kindName (.foreachStatement h b l c i f), .foreachStatement h b l c i f, d) ::
    (preorderNode (d + 1) h ++ preorderNode (d + 1) f ++ preorderList (d + 1) b)
  | .whileStatement h b l c i f =>
    (kindName (.whileStatement h b l c i f), .whileStatement h b l c i f, d) ::
    (preorderNode (d + 1) h ++ preorderNode (d + 1) f ++ preorderList (d + 1) b)
  | .toplevelBody stmts =>
    (kindName (.toplevelBody stmts), .toplevelBody stmts, d) :: preorderList (d + 1) stmts
  | .pyNone => []

/-- Preorder of a list of sibling nodes. -/
def preorderList (d : Nat) : List Node → List Entry
  | [] => []
  | n :: ns => preorderNode d n ++ preorderList d ns

end

/-- Whether a registered callback would record an entry. -/
def entryEnabled (cfg : String → Bool) (e : Entry) : Bool :=
  match handlerKey e.2.1 with
  | some k => cfg k
  | none => false

/-- Reassemble the contents of a token list in order. -/
def rejoinTokens (tokens : List Token) : String :=
  tokens.foldl (fun s t => s ++ t.content) ""

/-- The transient kinds named by the specification: they are meant to exist
    only during compression. -/
def transientKinds : List TokenType :=
  [.whitespace,
   .beginDoubleQuotedLiteral, .endDoubleQuotedLiteral,
   .beginSingleQuotedLiteral, .endSingleQuotedLiteral,
   .beginRSTComment, .beginInlineRST, .endInlineRST]

end CMakeAST

namespace CMakeAST

/-- Tokens of the multi-line string input of C7. -/
theorem tokenizeC7 :
    tokenize "f (\"MULTI\nLINE\nSTRING\")\n" =
      .ok [⟨.word, "f", 1, 1⟩, ⟨.leftParen, "(", 1, 3⟩,
           ⟨.quotedLiteral, "\"MULTI\nLINE\nSTRING\"", 1, 4⟩,
           ⟨.rightParen, ")", 3, 8⟩, ⟨.newline, "\n", 3, 9⟩] := by
  rfl

/-- Tree built from the tokens of C7. -/
theorem parseTokensC7 :
    parseFromTokens
      [⟨.word, "f", 1, 1⟩, ⟨.leftParen, "(", 1, 3⟩,
       ⟨.quotedLiteral, "\"MULTI\nLINE\nSTRING\"", 1, 4⟩,
       ⟨.rightParen, ")", 3, 8⟩, ⟨.newline, "\n", 3, 9⟩] =
      .ok (.toplevelBody
        [.functionCall "f"
          [.word .string "\"MULTI\nLINE\nSTRING\"" 1 4 2] 1 1 0]) := by
  rfl

/-- Claim C7: parsing an argument list holding one double-quoted string that
    spans three lines yields exactly one FunctionCall whose single argument
    is a String-typed Word keeping the quote characters and the embedded
    newlines, anchored at the line and column of the opening quote. -/
theorem c7_multiline_string :
    parse "f (\"MULTI\nLINE\nSTRING\")\n" =
      .ok (.toplevelBody
        [.functionCall "f"
          [.word .string "\"MULTI\nLINE\nSTRING\"" 1 4 2] 1 1 0]) := by
  unfold parse
  rw [tokenizeC7]
  exact parseTokensC7

/-- Tokens of the nested-paren input of C8. -/
theorem tokenizeC8 :
    tokenize "f ( ( ABC ) )\n" =
      .ok [⟨.word, "f", 1, 1⟩, ⟨.leftParen, "(", 1, 3⟩,
           ⟨.unquotedLiteral, "(", 1, 5⟩, ⟨.word, "ABC", 1, 7⟩,
           ⟨.unquotedLiteral, ")", 1, 11⟩, ⟨.rightParen, ")", 1, 13⟩,
           ⟨.newline, "\n", 1, 14⟩] := by
  rfl

/-- Tree built from the tokens of C8. -/
theorem parseTokensC8 :
    parseFromTokens
      [⟨.word, "f", 1, 1⟩, ⟨.leftParen, "(", 1, 3⟩,
       ⟨.unquotedLiteral, "(", 1, 5⟩, ⟨.word, "ABC", 1, 7⟩,
       ⟨.unquotedLiteral, ")", 1, 11⟩, ⟨.rightParen, ")", 1, 13⟩,
       ⟨.newline, "\n", 1, 14⟩] =
      .ok (.toplevelBody
        [.functionCall "f"
          [.word .compoundLiteral "(" 1 5 2,
           .word .variable "ABC" 1 7 3,
           .word .compoundLiteral ")" 1 11 4] 1 1 0]) := by
  rfl

/-- Claim C8 counterexample: on the nested-paren input the middle argument
    ABC parses as a Word of type Variable, not CompoundLiteral as the claim
    states, so the claim fails at this concrete input. -/
theorem c8_counterexample :
    parse "f ( ( ABC ) )\n" =
      .ok (.toplevelBody
        [.functionCall "f"
          [.word .compoundLiteral "(" 1 5 2,
           .word .variable "ABC" 1 7 3,
           .word .compoundLiteral ")" 1 11 4] 1 1 0]) ∧
    WordType.variable ≠ WordType.compoundLiteral := by
  refine ⟨?_, by decide⟩
  unfold parse
  rw [tokenizeC8]
  exact parseTokensC8

/-- Claim C8 (amended): the nested-paren input yields a single FunctionCall
    named f with exactly three Word arguments of contents open-paren, ABC
    and close-paren in order; the two paren words are CompoundLiteral while
    ABC keeps type Variable, and the enclosing call parens stay structural
    (they do not appear among the arguments). -/
theorem c8_amended :
    parse "f ( ( ABC ) )\n" =
      .ok (.toplevelBody
        [.functionCall "f"
          [.word .compoundLiteral "(" 1 5 2,
           .word .variable "ABC" 1 7 3,
           .word .compoundLiteral ")" 1 11 4] 1 1 0]) := by
  unfold parse
  rw [tokenizeC8]
  exact parseTokensC8

/-- Tokens of the RST block input of C9. -/
theorem tokenizeC9 :
    tokenize "#.rst:\n# ABC\nfunction_call ()\n" =
      .ok [⟨.rst, "#.rst:\n", 1, 1⟩,
           ⟨.rst, "# ABC\n", 2, 1⟩,
           ⟨.word, "function_call", 3, 1⟩,
           ⟨.leftParen, "(", 3, 15⟩,
           ⟨.rightParen, ")", 3, 16⟩,
           ⟨.newline, "\n", 3, 17⟩] := by
  rfl

/-- Tree built from the tokens of C9. -/
theorem parseTokensC9 :
    parseFromTokens
      [⟨.rst, "#.rst:\n", 1, 1⟩,
       ⟨.rst, "# ABC\n", 2, 1⟩,
       ⟨.word, "function_call", 3, 1⟩,
       ⟨.leftParen, "(", 3, 15⟩,
       ⟨.rightParen, ")", 3, 16⟩,
       ⟨.newline, "\n", 3, 17⟩] =
      .ok (.toplevelBody [.functionCall "function_call" [] 3 1 2]) := by
  rfl

/-- Claim C9: the RST block input produces exactly two RST tokens, one per
    source line with the pasted line contents, each anchored at its own
    line, followed by the code tokens; the parsed FunctionCall carries
    line 3. -/
theorem c9_rst_block :
    tokenize "#.rst:\n# ABC\nfunction_call ()\n" =
      .ok [⟨.rst, "#.rst:\n", 1, 1⟩,
           ⟨.rst, "# ABC\n", 2, 1⟩,
           ⟨.word, "function_call", 3, 1⟩,
           ⟨.leftParen, "(", 3, 15⟩,
           ⟨.rightParen, ")", 3, 16⟩,
           ⟨.newline, "\n", 3, 17⟩] ∧
    parse "#.rst:\n# ABC\nfunction_call ()\n" =
      .ok (.toplevelBody [.functionCall "function_call" [] 3 1 2]) := by
  refine ⟨tokenizeC9, ?_⟩
  unfold parse
  rw [tokenizeC9]
  exact parseTokensC9

/-- Claim C1 counterexample: an unterminated double-quoted string leaves the
    transient BeginDoubleQuotedLiteral token in the output of tokenize, so
    the claim fails at this concrete input. -/
theorem c1_counterexample :
    tokenize "\"abc\n" = .ok [⟨.beginDoubleQuotedLiteral, "\"abc\n", 1, 1⟩] ∧
    TokenType.beginDoubleQuotedLiteral ∈ transientKinds := by
  exact ⟨by rfl, by decide⟩

/-- Claim C4 counterexample: with an unmatched left paren at end-of-stream
    the paren-count assertion of the compressor fires, so tokenize raises
    rather than tolerating the input. -/
theorem c4_counterexample :
    tokenize "(" = .error .assertionError := by
  rfl

/-- Claim C6 counterexample: rejoining the tokens of an input whose words
    were separated by whitespace merges the words, so retokenizing the
    rejoined contents differs from the original token list and idempotence
    fails. -/
theorem c6_counterexample :
    tokenize "f (a b)\n" =
      .ok [⟨.word, "f", 1, 1⟩, ⟨.leftParen, "(", 1, 3⟩, ⟨.word, "a", 1, 4⟩,
           ⟨.word, "b", 1, 6⟩, ⟨.rightParen, ")", 1, 7⟩, ⟨.newline, "\n", 1, 8⟩] ∧
    rejoinTokens
      [⟨.word, "f", 1, 1⟩, ⟨.leftParen, "(", 1, 3⟩, ⟨.word, "a", 1, 4⟩,
       ⟨.word, "b", 1, 6⟩, ⟨.rightParen, ")", 1, 7⟩, ⟨.newline, "\n", 1, 8⟩] = "f(ab)\n" ∧
    tokenize "f(ab)\n" =
      .ok [⟨.word, "f", 1, 1⟩, ⟨.leftParen, "(", 1, 2⟩, ⟨.word, "ab", 1, 3⟩,
           ⟨.rightParen, ")", 1, 5⟩, ⟨.newline, "\n", 1, 6⟩] ∧
    ([⟨.word, "f", 1, 1⟩, ⟨.leftParen, "(", 1, 3⟩, ⟨.word, "a", 1, 4⟩,
      ⟨.word, "b", 1, 6⟩, ⟨.rightParen, ")", 1, 7⟩, ⟨.newline, "\n", 1, 8⟩] : List Token) ≠
    [⟨.word, "f", 1, 1⟩, ⟨.leftParen, "(", 1, 2⟩, ⟨.word, "ab", 1, 3⟩,
     ⟨.rightParen, ")", 1, 5⟩, ⟨.newline, "\n", 1, 6⟩] := by
  exact ⟨by rfl, by rfl, by rfl, by decide⟩

/-- Claim C6 (amended): tokenization is a fixed point of rejoin-retokenize
    only on inputs the rejoining reproduces exactly (ones with no dropped
    whitespace), such as this one; in general dropping whitespace merges
    adjacent atoms and shifts columns, and the property fails. -/
theorem c6_amended :
    Except.bind (tokenize "f(ab)\n") (fun ts => tokenize (rejoinTokens ts)) =
      tokenize "f(ab)\n" := by
  rfl

/-- Bind on a successful Except computation. -/
theorem exBindOk {α β : Type} (a : α) (f : α → Except PyErr β) :
    (Except.ok a >>= f) = f a := rfl

/-- Bind on a failed Except computation. -/
theorem exBindErr {α β : Type} (e : PyErr) (f : α → Except PyErr β) :
    ((Except.error e : Except PyErr α) >>= f) = .error e := rfl

/-- Tokens of the unterminated-endfunction input of C5. -/
theorem tokenizeC5 :
    tokenize "function (func)\nendfunction" =
      .ok [⟨.word, "function", 1, 1⟩, ⟨.leftParen, "(", 1, 10⟩,
           ⟨.word, "func", 1, 11⟩, ⟨.rightParen, ")", 1, 15⟩,
           ⟨.newline, "\n", 1, 16⟩, ⟨.word, "endfunction", 2, 1⟩] := by
  rfl

/-- Parsing the tokens of C5 raises the syntax error. -/
theorem parseTokensC5 :
    parseFromTokens
      [⟨.word, "function", 1, 1⟩, ⟨.leftParen, "(", 1, 10⟩,
       ⟨.word, "func", 1, 11⟩, ⟨.rightParen, ")", 1, 15⟩,
       ⟨.newline, "\n", 1, 16⟩, ⟨.word, "endfunction", 2, 1⟩] =
      .error (.runtimeError "Syntax Error") := by
  rfl

/-- Claim C5: the input whose endfunction carries no parens fails with the
    syntax error, and in general, whenever a block-terminator regex matches
    the token at the last stream position so that no token follows where a
    LeftParen is expected, the termination predicate raises the syntax
    error. -/
theorem c5_terminator_at_end_syntax_error :
    parse "function (func)\nendfunction" = .error (.runtimeError "Syntax Error") ∧
    (∀ (r : EndRegex) (tokens : List Token) (i : Nat) (t : Token),
      tokens[i]? = some t → reMatches r t.content = true → tokens[i + 1]? = none →
      evalTerm (.headerBody r) tokens i = .error (.runtimeError "Syntax Error")) := by
  constructor
  · unfold parse
    rw [tokenizeC5]
    exact parseTokensC5
  · intro r tokens i t h1 h2 h3
    unfold evalTerm tokGet
    rw [h1]
    simp [exBindOk, h2, h3]

/-- Witness for C5: the general terminator lemma applied at a one-token
    stream holding only the word endfunction. -/
theorem c5_terminator_at_end_syntax_error_witness :
    evalTerm (.headerBody .endFunction) [⟨.word, "endfunction", 2, 1⟩] 0 =
      .error (.runtimeError "Syntax Error") :=
  c5_terminator_at_end_syntax_error.2 .endFunction [⟨.word, "endfunction", 2, 1⟩] 0
    ⟨.word, "endfunction", 2, 1⟩ (by rfl) (by decide) (by rfl)

/-- Claim C1 (amended): the only kind tokenize is guaranteed to eliminate is
    Whitespace, dropped by the final filter; the other transient kinds can
    escape when a multi-line construct stays unterminated at end of input. -/
theorem c1_only_whitespace_guaranteed :
    ∀ (contents : String) (toks : List Token), tokenize contents = .ok toks →
      ∀ t ∈ toks, t.type ≠ TokenType.whitespace := by
  intro contents toks h t ht
  unfold tokenize at h
  cases hs : scanForTokens contents with
  | error e =>
    simp only [hs, exBindErr] at h
    exact Except.noConfusion h
  | ok a =>
    simp only [hs, exBindOk] at h
    cases hc : compressTokens a with
    | error e =>
      simp only [hc, exBindErr] at h
      exact Except.noConfusion h
    | ok b =>
      simp only [hc, exBindOk] at h
      have hb := Except.ok.inj h
      rw [← hb] at ht
      have := List.of_mem_filter ht
      simpa using this

/-- Witness for C1: the amended theorem applied at a concrete input and
    token of its output. -/
theorem c1_only_whitespace_guaranteed_witness :
    (⟨.word, "f", 1, 1⟩ : Token).type ≠ TokenType.whitespace :=
  c1_only_whitespace_guaranteed "f\n"
    [⟨.word, "f", 1, 1⟩, ⟨.newline, "\n", 1, 2⟩] (by rfl)
    ⟨.word, "f", 1, 1⟩ (by simp)

/-- Claim C2: whenever parse succeeds, the collector consumed the whole
    compressed token stream (the final cursor equals its length) and the
    toplevel GenericBody has no dangling arguments. -/
theorem c2_stream_consumption :
    ∀ (contents : String) (b : Node), parse contents = .ok b →
      ∃ (toks : List Token) (i : Nat) (gb : GenericBody),
        tokenize contents = .ok toks ∧
        astWorker (parseFuel toks) toks toks.length 0 none = .ok (i, gb) ∧
        i = toks.length ∧ gb.arguments = [] ∧ b = .toplevelBody gb.statements := by
  intro contents b h
  unfold parse at h
  cases hs : tokenize contents with
  | error e =>
    simp only [hs, exBindErr] at h
    exact Except.noConfusion h
  | ok toks =>
    simp only [hs, exBindOk] at h
    unfold parseFromTokens at h
    cases hw : astWorker (parseFuel toks) toks toks.length 0 none with
    | error e =>
      simp only [hw, exBindErr] at h
      exact Except.noConfusion h
    | ok p =>
      simp only [hw, exBindOk] at h
      obtain ⟨i, gb⟩ := p
      by_cases hi : i = toks.length
      · subst hi
        rw [if_neg (fun hh => hh rfl)] at h
        refine ⟨toks, toks.length, gb, rfl, hw, rfl, ?_⟩
        cases ha : gb.arguments with
        | nil =>
          simp only [ha] at h
          exact ⟨rfl, (Except.ok.inj h).symm⟩
        | cons x xs =>
          simp only [ha] at h
          exact Except.noConfusion h
      · exfalso
        rw [if_pos hi] at h
        exact Except.noConfusion h

/-- Witness for C2: the theorem applied at the empty input, whose parse
    succeeds with an empty toplevel. -/
theorem c2_stream_consumption_witness :
    parse "" = .ok (.toplevelBody []) ∧
    (∃ (toks : List Token) (i : Nat) (gb : GenericBody),
      tokenize "" = .ok toks ∧
      astWorker (parseFuel toks) toks toks.length 0 none = .ok (i, gb) ∧
      i = toks.length ∧ gb.arguments = [] ∧
      Node.toplevelBody [] = .toplevelBody gb.statements) :=
  ⟨by rfl, c2_stream_consumption "" (.toplevelBody []) (by rfl)⟩

/-- Tokens of the stray end-quote input of C4. -/
theorem tokenizeC4 :
    tokenize "x\" y\n" =
      .ok [⟨.unquotedLiteral, "x\"", 1, 1⟩, ⟨.word, "y", 1, 4⟩,
           ⟨.newline, "\n", 1, 5⟩] := by
  rfl

/-- Claim C4 (amended): stray end-quoted tokens outside a multi-line string
    are tolerated, rewritten in place to UnquotedLiteral with the same
    content and anchor; but an unmatched paren_depth at end-of-stream is
    not tolerated: the closing assertion of the paren tracker makes
    tokenize raise. -/
theorem c4_stray_rewrites_and_paren_assert :
    (∀ (tokens : List Token) (i : Nat) (t : Token), tokens[i]? = some t →
       edgeCaseStrayEndQuoted tokens i =
         tokens.set i ⟨.unquotedLiteral, t.content, t.line, t.col⟩) ∧
    tokenize "x\" y\n" =
      .ok [⟨.unquotedLiteral, "x\"", 1, 1⟩, ⟨.word, "y", 1, 4⟩,
           ⟨.newline, "\n", 1, 5⟩] ∧
    tokenize "(" = .error .assertionError := by
  refine ⟨?_, tokenizeC4, by rfl⟩
  intro tokens i t h
  unfold edgeCaseStrayEndQuoted
  rw [h]

/-- Witness for C4: the rewrite lemma applied at a concrete singleton
    stream holding one stray end-quoted token. -/
theorem c4_stray_rewrites_and_paren_assert_witness :
    edgeCaseStrayEndQuoted [⟨.endDoubleQuotedLiteral, "x\"", 1, 1⟩] 0 =
      [⟨.unquotedLiteral, "x\"", 1, 1⟩] :=
  c4_stray_rewrites_and_paren_assert.1
    [⟨.endDoubleQuotedLiteral, "x\"", 1, 1⟩] 0
    ⟨.endDoubleQuotedLiteral, "x\"", 1, 1⟩ (by rfl)

/-- The callback entry of a node equals the filtered singleton holding it. -/
theorem emitEntry_eq_filter (cfg : String → Bool) (d : Nat) (n : Node) :
    emitEntry cfg d n = List.filter (entryEnabled cfg) [(kindName n, n, d)] := by
  unfold emitEntry entryEnabled
  cases h : handlerKey n <;> simp [h, List.filter_cons]

/-- Filtering distributes over the head entry and the tail. -/
theorem filter_singleton_append (p : Entry → Bool) (e : Entry) (l : List Entry) :
    List.filter p [e] ++ List.filter p l = List.filter p (e :: l) := by
  rw [List.filter_cons, List.filter_cons]
  by_cases h : p e <;> simp [h]

mutual

/-- The visitor trace is the schema preorder restricted to the kinds whose
    callback is registered. -/
theorem recurseNode_eq_preorder (cfg : String → Bool) :
    (d : Nat) → (n : Node) →
    recurseNode cfg d n = (preorderNode d n).filter (entryEnabled cfg)
  | d, .word t c l co i => by
    simp only [recurseNode, preorderNode]
    rw [emitEntry_eq_filter]
  | d, .functionCall nm args l c i => by
    simp only [recurseNode, preorderNode]
    rw [recurseList_eq_preorder cfg (d + 1) args, emitEntry_eq_filter,
        filter_singleton_append]
  | d, .functionDefinition h b l c i f => by
    simp only [recurseNode, preorderNode]
    rw [recurseNode_eq_preorder cfg (d + 1) h, recurseNode_eq_preorder cfg (d + 1) f,
        recurseList_eq_preorder cfg (d + 1) b, emitEntry_eq_filter,
        ← List.filter_append, ← List.filter_append, ← List.filter_append]
    rfl
  | d, .macroDefinition h b l c i f => by
    simp only [recurseNode, preorderNode]
    rw [recurseNode_eq_preorder cfg (d + 1) h, recurseNode_eq_preorder cfg (d + 1) f,
        recurseList_eq_preorder cfg (d + 1) b, emitEntry_eq_filter,
        ← List.filter_append, ← List.filter_append, ← List.filter_append]
    rfl
  | d, .ifStatement h b l c i => by
    simp only [recurseNode, preorderNode]
    rw [recurseNode_eq_preorder cfg (d + 1) h, recurseList_eq_preorder cfg (d + 1) b,
        emitEntry_eq_filter, ← List.filter_append, ← List.filter_append]
    rfl
  | d, .elseIfStatement h b l c i => by
    simp only [recurseNode, preorderNode]
    rw [recurseNode_eq_preorder cfg (d + 1) h, recurseList_eq_preorder cfg (d + 1) b,
        emitEntry_eq_filter, ← List.filter_append, ← List.filter_append]
    rfl
  | d, .elseStatement h b l c i => by
    simp only [recurseNode, preorderNode]
    rw [recurseNode_eq_preorder cfg (d + 1) h, recurseList_eq_preorder cfg (d + 1) b,
        emitEntry_eq_filter, ← List.filter_append, ← List.filter_append]
    rfl
  | d, .ifBlock ifS elifs elseS l c i f => by
    simp only [recurseNode, preorderNode]
    rw [recurseNode_eq_preorder cfg (d + 1) ifS, recurseNode_eq_preorder cfg (d + 1) elseS,
        recurseNode_eq_preorder cfg (d + 1) f, recurseList_eq_preorder cfg (d + 1) elifs,
        emitEntry_eq_filter,
        ← List.filter_append, ← List.filter_append, ← List.filter_append,
        ← List.filter_append]
    rfl
  | d, .foreachStatement h b l c i f => by
    simp only [recurseNode, preorderNode]
    rw [recurseNode_eq_preorder cfg (d + 1) h, recurseNode_eq_preorder cfg (d + 1) f,
        recurseList_eq_preorder cfg (d + 1) b, emitEntry_eq_filter,
        ← List.filter_append, ← List.filter_append, ← List.filter_append]
    rfl
  | d, .whileStatement h b l c i f => by
    simp only [recurseNode, preorderNode]
    rw [recurseNode_eq_preorder cfg (d + 1) h, recurseNode_eq_preorder cfg (d + 1) f,
        recurseList_eq_preorder cfg (d + 1) b, emitEntry_eq_filter,
        ← List.filter_append, ← List.filter_append, ← List.filter_append]
    rfl
  | d, .toplevelBody stmts => by
    simp only [recurseNode, preorderNode]
    rw [recurseList_eq_preorder cfg (d + 1) stmts, emitEntry_eq_filter,
        filter_singleton_append]
  | d, .pyNone => by
    simp [recurseNode, preorderNode]

/-- List version of the trace-preorder correspondence. -/
theorem recurseList_eq_preorder (cfg : String → Bool) :
    (d : Nat) → (ns : List Node) →
    recurseList cfg d ns = (preorderList d ns).filter (entryEnabled cfg)
  | d, [] => by simp [recurseList, preorderList]
  | d, n :: ns => by
    simp only [recurseList, preorderList]
    rw [recurseNode_eq_preorder cfg d n, recurseList_eq_preorder cfg d ns,
        List.filter_append]

end

/-- Preorder of siblings is the concatenation of their preorders. -/
theorem preorderList_eq_bind (d : Nat) (ns : List Node) :
    preorderList d ns = ns.flatMap (preorderNode d) := by
  induction ns with
  | nil => simp [preorderList]
  | cons n ns ih => simp [preorderList, ih]

/-- Preorder through the schema table: a node in the table is followed by
    the preorders of its children in table order, each one level deeper. -/
theorem preorderNode_eq_children (d : Nat) (n : Node) :
    preorderNode d n =
      if inSchema n then
        (kindName n, n, d) :: (childrenInOrder n).flatMap (preorderNode (d + 1))
      else [] := by
  cases n <;>
    simp [preorderNode, childrenInOrder, inSchema, handlerKey, kindName,
      preorderList_eq_bind, List.append_assoc]

mutual

/-- Every entry of the preorder at depth d carries a depth at least d. -/
theorem preorderNode_depth_le :
    (d : Nat) → (n : Node) → ∀ e, e ∈ preorderNode d n → d ≤ e.2.2
  | d, .word t c l co i => by
    intro e he
    simp only [preorderNode, List.mem_singleton] at he
    subst he
    exact Nat.le_refl d
  | d, .functionCall nm args l c i => by
    intro e he
    simp only [preorderNode, List.mem_cons] at he
    rcases he with rfl | he
    · exact Nat.le_refl d
    · exact Nat.le_of_succ_le (preorderList_depth_le (d + 1) args e he)
  | d, .functionDefinition h b l c i f => by
    intro e he
    simp only [preorderNode, List.mem_cons, List.mem_append] at he
    rcases he with rfl | ((hh | hf) | hb)
    · exact Nat.le_refl d
    · exact Nat.le_of_succ_le (preorderNode_depth_le (d + 1) h e hh)
    · exact Nat.le_of_succ_le (preorderNode_depth_le (d + 1) f e hf)
    · exact Nat.le_of_succ_le (preorderList_depth_le (d + 1) b e hb)
  | d, .macroDefinition h b l c i f => by
    intro e he
    simp only [preorderNode, List.mem_cons, List.mem_append] at he
    rcases he with rfl | ((hh | hf) | hb)
    · exact Nat.le_refl d
    · exact Nat.le_of_succ_le (preorderNode_depth_le (d + 1) h e hh)
    · exact Nat.le_of_succ_le (preorderNode_depth_le (d + 1) f e hf)
    · exact Nat.le_of_succ_le (preorderList_depth_le (d + 1) b e hb)
  | d, .ifStatement h b l c i => by
    intro e he
    simp only [preorderNode, List.mem_cons, List.mem_append] at he
    rcases he with rfl | (hh | hb)
    · exact Nat.le_refl d
    · exact Nat.le_of_succ_le (preorderNode_depth_le (d + 1) h e hh)
    · exact Nat.le_of_succ_le (preorderList_depth_le (d + 1) b e hb)
  | d, .elseIfStatement h b l c i => by
    intro e he
    simp only [preorderNode, List.mem_cons, List.mem_append] at he
    rcases he with rfl | (hh | hb)
    · exact Nat.le_refl d
    · exact Nat.le_of_succ_le (preorderNode_depth_le (d + 1) h e hh)
    · exact Nat.le_of_succ_le (preorderList_depth_le (d + 1) b e hb)
  | d, .elseStatement h b l c i => by
    intro e he
    simp only [preorderNode, List.mem_cons, List.mem_append] at he
    rcases he with rfl | (hh | hb)
    · exact Nat.le_refl d
    · exact Nat.le_of_succ_le (preorderNode_depth_le (d + 1) h e hh)
    · exact Nat.le_of_succ_le (preorderList_depth_le (d + 1) b e hb)
  | d, .ifBlock ifS elifs elseS l c i f => by
    intro e he
    simp only [preorderNode, List.mem_cons, List.mem_append] at he
    rcases he with rfl | (((hi | he2) | hf) | hl)
    · exact Nat.le_refl d
    · exact Nat.le_of_succ_le (preorderNode_depth_le (d + 1) ifS e hi)
    · exact Nat.le_of_succ_le (preorderNode_depth_le (d + 1) elseS e he2)
    · exact Nat.le_of_succ_le (preorderNode_depth_le (d + 1) f e hf)
    · exact Nat.le_of_succ_le (preorderList_depth_le (d + 1) elifs e hl)
  | d, .foreachStatement h b l c i f => by
    intro e he
    simp only [preorderNode, List.mem_cons, List.mem_append] at he
    rcases he with rfl | ((hh | hf) | hb)
    · exact Nat.le_refl d
    · exact Nat.le_of_succ_le (preorderNode_depth_le (d + 1) h e hh)
    · exact Nat.le_of_succ_le (preorderNode_depth_le (d + 1) f e hf)
    · exact Nat.le_of_succ_le (preorderList_depth_le (d + 1) b e hb)
  | d, .whileStatement h b l c i f => by
    intro e he
    simp only [preorderNode, List.mem_cons, List.mem_append] at he
    rcases he with rfl | ((hh | hf) | hb)
    · exact Nat.le_refl d
    · exact Nat.le_of_succ_le (preorderNode_depth_le (d + 1) h e hh)
    · exact Nat.le_of_succ_le (preorderNode_depth_le (d + 1) f e hf)
    · exact Nat.le_of_succ_le (preorderList_depth_le (d + 1) b e hb)
  | d, .toplevelBody stmts => by
    intro e he
    simp only [preorderNode, List.mem_cons] at he
    rcases he with rfl | he
    · exact Nat.le_refl d
    · exact Nat.le_of_succ_le (preorderList_depth_le (d + 1) stmts e he)
  | d, .pyNone => by
    intro e he
    simp [preorderNode] at he

/-- Sibling version of the depth lower bound. -/
theorem preorderList_depth_le :
    (d : Nat) → (ns : List Node) → ∀ e, e ∈ preorderList d ns → d ≤ e.2.2
  | d, [] => by
    intro e he
    simp [preorderList] at he
  | d, n :: ns => by
    intro e he
    simp only [preorderList, List.mem_append] at he
    rcases he with he | he
    · exact preorderNode_depth_le d n e he
    · exact preorderList_depth_le d ns e he

end

/-- Claim C3: visitor callbacks observe the schema preorder of the tree:
    the trace of recurse is the preorder (filtered to registered callbacks),
    the preorder places every child of a table node exactly one level below
    its parent in table order, depths never drop below the depth of the
    subtree root along any path, and a walk started by recurse observes the
    ToplevelBody at depth 0 first whenever its callback is registered. -/
theorem c3_visitor_depth_law :
    (∀ (cfg : String → Bool) (d : Nat) (n : Node),
      recurseNode cfg d n = (preorderNode d n).filter (entryEnabled cfg)) ∧
    (∀ (d : Nat) (n : Node),
      preorderNode d n =
        if inSchema n then
          (kindName n, n, d) :: (childrenInOrder n).flatMap (preorderNode (d + 1))
        else []) ∧
    (∀ (d : Nat) (n : Node) (e : Entry), e ∈ preorderNode d n → d ≤ e.2.2) ∧
    (∀ (cfg : String → Bool) (stmts : List Node), cfg "toplevel" = true →
      (recurse cfg (.toplevelBody stmts)).head? =
        some ("ToplevelBody", .toplevelBody stmts, 0)) := by
  refine ⟨fun cfg d n => recurseNode_eq_preorder cfg d n,
          preorderNode_eq_children,
          preorderNode_depth_le,
          ?_⟩
  intro cfg stmts hcfg
  unfold recurse
  rw [recurseNode_eq_preorder]
  simp [preorderNode, List.filter_cons, entryEnabled, handlerKey, kindName, hcfg]

/-- Witness for C3: the depth bound and the depth-zero root observation at a
    concrete tree and configuration. -/
theorem c3_visitor_depth_law_witness :
    (0 : Nat) ≤ ("ToplevelBody", Node.toplevelBody [], 0).2.2 ∧
    (recurse (fun _ => true) (.toplevelBody [])).head? =
      some ("ToplevelBody", .toplevelBody [], 0) :=
  ⟨c3_visitor_depth_law.2.2.1 0 (.toplevelBody [])
      ("ToplevelBody", Node.toplevelBody [], 0) (by simp [preorderNode, preorderList, kindName]),
   c3_visitor_depth_law.2.2.2 (fun _ => true) [] (by rfl)⟩

/-- Claim C10: an IfBlock whose else_statement is the Python None is walked
    without any callback for the absent child (None falls outside the node
    table, so the walk returns from it silently and totally), while the
    if_statement, the footer and every elseif_statement are still visited,
    each at the depth below the block. -/
theorem c10_absent_else_skipped :
    ∀ (cfg : String → Bool) (d : Nat) (i f : Node) (es : List Node) (l c ix : Nat),
      recurseNode cfg d (.ifBlock i es .pyNone l c ix f) =
        emitEntry cfg d (.ifBlock i es .pyNone l c ix f) ++
        recurseNode cfg (d + 1) i ++ recurseNode cfg (d + 1) f ++
        recurseList cfg (d + 1) es ∧
      recurseNode cfg (d + 1) (.pyNone : Node) = [] := by
  intro cfg d i f es l c ix
  refine ⟨?_, rfl⟩
  rw [recurseNode]
  rw [show recurseNode cfg (d + 1) (.pyNone : Node) = [] from rfl]
  simp

end CMakeAST
